import Mathlib

/-
Shallow embedding of the wishlist-savings planner (src/streamlit_app.py).

Modelling conventions:
* Python integers are `Int`.  All amounts handled by the program are ints
  (every UI input is coerced with `int(...)` before being stored).
* `(target - current) / months` in `monthly_need_for_item` is Python float
  division followed by `int(...)`, which truncates toward zero; for the
  integer magnitudes this program handles that composite is exactly
  truncating integer division, embedded as `Int.tdiv`.
* Optional dict fields read with `.get(key, default)` are `Option` fields
  resolved with the source's default at each read site.
* `sorted(wishlist, key=lambda x: x.get("priority", 999))` is Python's
  stable sort; a stable sort's output is uniquely determined by the key
  function and the input order, so it is embedded as a stable insertion
  sort on the same key.
* The mutating UI handlers (apply-allocation, manual deposit, add item)
  are embedded as pure state-to-state functions; `datetime.now()`
  timestamps are passed in as opaque string arguments.
-/

/-- Profile dict: `data["profile"]`.  The `*_pct` keys of the default
profile are never read by any computation and are omitted. -/
structure Profile where
  income : Int
  fixed_expenses : Int
  saving_invest : Int
  emergency : Int
deriving DecidableEq

/-- Wishlist item dict `{id,name,target,months,current,priority,created}`.
`months`, `current` and `priority` are read via `.get` with defaults in the
source, so they are optional here; `id`, `name`, `target` are always read
with mandatory indexing (`it["id"]` etc.). -/
structure WishItem where
  id : Int
  name : String
  target : Int
  months : Option Int
  current : Option Int
  priority : Option Int
  created : String
deriving DecidableEq

/-- Allocation record `{"id":…, "name":…, "assigned":…, "need":…}` appended
by `allocate_to_wishlist`. -/
structure AllocRec where
  id : Int
  name : String
  assigned : Int
  need : Int
deriving DecidableEq

/-- Transaction dicts appended to `data["transactions"]`. -/
inductive Transaction where
  | monthlyAlloc (ts : String) (alloc : List AllocRec)
  | manualDeposit (ts : String) (amount : Int) (item_id : Int) (memo : String)
deriving DecidableEq

/-- Root state `{"profile": …, "wishlist": […], "transactions": […]}`. -/
structure AppState where
  profile : Profile
  wishlist : List WishItem
  transactions : List Transaction
deriving DecidableEq

/-- Source line 48-49: `usable = income - (fixed + saving + emergency);
return max(0, usable)`. -/
def calculate_usable (p : Profile) : Int :=
  max 0 (p.income - (p.fixed_expenses + p.saving_invest + p.emergency))

/-- Source line 52: `months = item.get("months", 1) or 1`.  The `.get`
supplies 1 when the key is absent; `or 1` replaces a falsy value (the int 0)
by 1. -/
def monthsOf (it : WishItem) : Int :=
  match it.months with
  | none => 1
  | some m => if m = 0 then 1 else m

/-- Source lines 53-54: `need = (item["target"] - item.get("current", 0)) /
months; return max(0, int(need))`.  Division-then-`int` truncates toward
zero, embedded as `Int.tdiv`. -/
def monthly_need_for_item (it : WishItem) : Int :=
  max 0 (Int.tdiv (it.target - it.current.getD 0) (monthsOf it))

/-- Sort key of line 60: `x.get("priority", 999)`. -/
def priorityKey (it : WishItem) : Int :=
  it.priority.getD 999

/-- Stable insertion of one item into an already-processed list: the new
item `x` goes before the first element whose key is `≥` its own, so among
equal keys earlier-listed items stay first. -/
def insertByPriority (x : WishItem) : List WishItem → List WishItem
  | [] => [x]
  | y :: ys =>
    if priorityKey x ≤ priorityKey y then x :: y :: ys
    else y :: insertByPriority x ys

/-- Embedding of line 60, `sorted(wishlist, key=lambda x: x.get("priority",
999))`: a stable sort ascending by `priorityKey` (stable sorts agree on
their output, so insertion sort represents Python's sort faithfully). -/
def sortByPriority : List WishItem → List WishItem
  | [] => []
  | x :: xs => insertByPriority x (sortByPriority xs)

/-- Loop of lines 61-67: walk the sorted items, assign
`min(need, remaining)`, append a record, subtract, and break as soon as
`remaining <= 0`. -/
def allocLoop : Int → List WishItem → List AllocRec × Int
  | remaining, [] => ([], remaining)
  | remaining, it :: rest =>
    let need := monthly_need_for_item it
    let assigned := min need remaining
    let remaining2 := remaining - assigned
    if remaining2 ≤ 0 then
      ([⟨it.id, it.name, assigned, need⟩], remaining2)
    else
      let res := allocLoop remaining2 rest
      (⟨it.id, it.name, assigned, need⟩ :: res.1, res.2)

/-- Source lines 56-68: `allocate_to_wishlist(usable, wishlist)`. -/
def allocate_to_wishlist (usable : Int) (wishlist : List WishItem) :
    List AllocRec × Int :=
  allocLoop usable (sortByPriority wishlist)

/-- Line 171: `id_to_assigned = {a["id"]: a["assigned"] for a in alloc}`
followed by `.get(it["id"], 0)`.  In a dict comprehension a later entry
overwrites an earlier one with the same id, hence the reversed search. -/
def id_to_assigned (alloc : List AllocRec) (i : Int) : Int :=
  match alloc.reverse.find? (fun a => a.id == i) with
  | some a => a.assigned
  | none => 0

/-- Body of the loop at lines 172-175: add the looked-up amount to
`it["current"]` when it is positive, otherwise leave the item alone. -/
def updItem (alloc : List AllocRec) (it : WishItem) : WishItem :=
  let add_amt := id_to_assigned alloc it.id
  if 0 < add_amt then { it with current := some (it.current.getD 0 + add_amt) }
  else it

/-- Apply-monthly-allocation handler, lines 169-183: update every wishlist
item from the allocation result and append one `monthly_alloc`
transaction. -/
def apply_monthly_allocation (ts : String) (state : AppState)
    (alloc : List AllocRec) : AppState :=
  { state with
    wishlist := state.wishlist.map (updItem alloc),
    transactions := state.transactions ++ [Transaction.monthlyAlloc ts alloc] }

/-- Loop of lines 199-202: add `amount` to the first item whose id matches
(`break` after the first hit), leaving everything else untouched. -/
def addDepositToWishlist (item_id amount : Int) :
    List WishItem → List WishItem
  | [] => []
  | it :: rest =>
    if it.id = item_id then
      { it with current := some (it.current.getD 0 + amount) } :: rest
    else it :: addDepositToWishlist item_id amount rest

/-- Manual-deposit handler, lines 197-209: update the wishlist (a silent
no-op when no item matches) and append one `manual_deposit` transaction
regardless of whether the id matched. -/
def record_manual_deposit (ts : String) (state : AppState)
    (item_id amount : Int) (memo : String) : AppState :=
  { state with
    wishlist := addDepositToWishlist item_id amount state.wishlist,
    transactions := state.transactions ++
      [Transaction.manualDeposit ts amount item_id memo] }

/-- Source lines 36-38: `max(existing)+1 if existing else 1` over
`[it.get("id", 0) for it in data["wishlist"]]` (ids are present on every
item the program creates, so the `.get` default never fires). -/
def new_item_id (data : AppState) : Int :=
  match data.wishlist with
  | [] => 1
  | it :: rest => (rest.map (fun j => j.id)).foldl max it.id + 1

/-- Add-item handler, lines 129-141: append a fresh item with
`id = new_item_id(data)`, `current = 0` and the form's fields. -/
def add_item (data : AppState) (name : String) (target months priority : Int)
    (created : String) : AppState :=
  { data with
    wishlist := data.wishlist ++
      [⟨new_item_id data, name, target, some months, some 0, some priority,
        created⟩] }

/-- Sum of the `assigned` fields of an allocation result. -/
def sumAssigned (recs : List AllocRec) : Int :=
  (recs.map (fun a => a.assigned)).sum

/-- Trace predicate for an allocation result: each record's `assigned`
equals `min need remaining` at the remaining budget reached at that record,
and the budget is decremented by exactly that amount before the next
record is checked. -/
def recsTrace (r : Int) : List AllocRec → Bool
  | [] => true
  | a :: rest => decide (a.assigned = min a.need r) && recsTrace (r - a.assigned) rest

/-- Concrete wishlist of the spec's priority-stability scenario: needs
100, 50, 80 with priorities 2, 1, 2 (each item has `months = 1` and
`current = 0`, so its need is its target). -/
def exampleItems : List WishItem :=
  [⟨1, "A", 100, some 1, some 0, some 2, "t1"⟩,
   ⟨2, "B", 50, some 1, some 0, some 1, "t2"⟩,
   ⟨3, "C", 80, some 1, some 0, some 2, "t3"⟩]

/-- The need of line 54 is clamped by `max(0, …)`, hence never negative. -/
theorem monthly_need_nonneg (it : WishItem) : 0 ≤ monthly_need_for_item it :=
  le_max_left 0 _

/-- Budget conservation invariant of the loop: assigned sums plus the
returned remainder reconstruct the budget the loop started with. -/
theorem allocLoop_conserve (l : List WishItem) : ∀ r : Int,
    sumAssigned (allocLoop r l).1 + (allocLoop r l).2 = r := by
  induction l with
  | nil => intro r; simp [allocLoop, sumAssigned]
  | cons it rest ih =>
    intro r
    simp only [allocLoop]
    split
    · simp [sumAssigned]
    · have h := ih (r - min (monthly_need_for_item it) r)
      simp only [sumAssigned, List.map_cons, List.sum_cons] at h ⊢
      omega

/-- The loop never drives the remaining budget negative when it starts
non-negative. -/
theorem allocLoop_rem_nonneg (l : List WishItem) : ∀ r : Int, 0 ≤ r →
    0 ≤ (allocLoop r l).2 := by
  induction l with
  | nil => intro r hr; simpa [allocLoop] using hr
  | cons it rest ih =>
    intro r hr
    simp only [allocLoop]
    split
    · simp only
      omega
    · next hneg =>
      exact ih _ (by omega)

/-- Every allocation record produced by the loop satisfies the min-assign /
exact-decrement trace discipline. -/
theorem allocLoop_trace (l : List WishItem) : ∀ r : Int,
    recsTrace r (allocLoop r l).1 = true := by
  induction l with
  | nil => intro r; simp [allocLoop, recsTrace]
  | cons it rest ih =>
    intro r
    simp only [allocLoop]
    split
    · simp [recsTrace]
    · simp [recsTrace, ih (r - min (monthly_need_for_item it) r)]

/-- C1: `allocate_to_wishlist` stops iterating as soon as the remaining
budget reaches 0 — an item whose assignment exhausts the budget still gets
a record (with the full remainder assigned), and everything after it in
sorted order is dropped entirely; on the spec's concrete scenario
(needs 100/50/80, priorities 2/1/2, usable 120) the result is id 2
assigned 50, id 1 assigned 70, id 3 absent, remaining 0. -/
theorem alloc_early_exit (r : Int) (it : WishItem) (rest : List WishItem)
    (h0 : 0 ≤ r) (h1 : r ≤ monthly_need_for_item it) :
    allocLoop r (it :: rest) =
      ([⟨it.id, it.name, r, monthly_need_for_item it⟩], 0) ∧
    allocate_to_wishlist 120 exampleItems =
      ([⟨2, "B", 50, 50⟩, ⟨1, "A", 70, 100⟩], 0) := by
  refine ⟨?_, by decide⟩
  simp [allocLoop, min_eq_right h1]

/-- Witness for C1: a budget of 50 is exhausted by an item needing 100; the
record is kept, the rest of the list is dropped. -/
theorem alloc_early_exit_witness :
    allocLoop 50 [⟨1, "A", 100, some 1, some 0, some 2, "t1"⟩] =
      ([⟨1, "A", 50, 100⟩], 0) ∧
    allocate_to_wishlist 120 exampleItems =
      ([⟨2, "B", 50, 50⟩, ⟨1, "A", 70, 100⟩], 0) :=
  alloc_early_exit 50 ⟨1, "A", 100, some 1, some 0, some 2, "t1"⟩ []
    (by decide) (by decide)

/-- C2: `monthly_need_for_item` is `max 0` of the truncated-toward-zero
quotient `(target - current) / months` with `months` resolved to 1 when
absent or zero; it is always non-negative, it is 0 whenever
`current ≥ target` (for the data model's positive month counts), and it is
recomputed from the fields on each call: the spec's item yields 100000,
and the same item with `current` grown to 150000 yields 83333. -/
theorem monthly_need_props (it : WishItem) (hm : 0 < monthsOf it)
    (hmet : it.target ≤ it.current.getD 0) :
    monthly_need_for_item it = 0 ∧
    (∀ j : WishItem, 0 ≤ monthly_need_for_item j) ∧
    (∀ j : WishItem, j.months = none → monthsOf j = 1) ∧
    (∀ j : WishItem, j.months = some 0 → monthsOf j = 1) ∧
    monthly_need_for_item ⟨1, "x", 400000, some 3, some 100000, some 1, ""⟩
      = 100000 ∧
    monthly_need_for_item ⟨1, "x", 400000, some 3, some 150000, some 1, ""⟩
      = 83333 := by
  refine ⟨?_, fun j => le_max_left 0 _, fun j hj => by simp [monthsOf, hj],
    fun j hj => by simp [monthsOf, hj], by decide, by decide⟩
  have ha : it.target - it.current.getD 0 ≤ 0 := by omega
  have h1 : 0 ≤ (-(it.target - it.current.getD 0)).tdiv (monthsOf it) :=
    Int.tdiv_nonneg (by omega) (le_of_lt hm)
  have h2 : (-(it.target - it.current.getD 0)).tdiv (monthsOf it) =
      -((it.target - it.current.getD 0).tdiv (monthsOf it)) :=
    Int.neg_tdiv _ _
  have h3 : (it.target - it.current.getD 0).tdiv (monthsOf it) ≤ 0 := by omega
  simpa [monthly_need_for_item] using max_eq_left h3

/-- Witness for C2: an already-met target (current 500000 ≥ target 400000,
months 3) needs 0 per month. -/
theorem monthly_need_props_witness :
    0 < monthsOf ⟨1, "x", 400000, some 3, some 500000, some 1, ""⟩ ∧
    monthly_need_for_item ⟨1, "x", 400000, some 3, some 500000, some 1, ""⟩
      = 0 :=
  ⟨by decide,
   (monthly_need_props ⟨1, "x", 400000, some 3, some 500000, some 1, ""⟩
     (by decide) (by decide)).1⟩

/-- C3: `calculate_usable` is the income minus the three commitments,
clamped below at 0 — it is 0 when the commitments reach the income, it is
never negative for any profile, and the spec's profile yields 890000. -/
theorem calculate_usable_props (p : Profile)
    (h : p.income - (p.fixed_expenses + p.saving_invest + p.emergency) ≤ 0) :
    calculate_usable p = 0 ∧
    (∀ q : Profile, 0 ≤ calculate_usable q) ∧
    calculate_usable ⟨2000000, 500000, 550000, 60000⟩ = 890000 :=
  ⟨max_eq_left h, fun q => le_max_left 0 _, by decide⟩

/-- Witness for C3: commitments 5+5+5 exceed an income of 0, and the
usable budget clamps to 0. -/
theorem calculate_usable_props_witness :
    (0 : Int) - (5 + 5 + 5) ≤ 0 ∧ calculate_usable ⟨0, 5, 5, 5⟩ = 0 :=
  ⟨by decide, (calculate_usable_props ⟨0, 5, 5, 5⟩ (by decide)).1⟩

/-- C5: every allocation record carries `assigned = min need remaining` at
the budget remaining when it is produced, the budget is decremented by
exactly that amount, and the final remaining value is non-negative for any
non-negative usable input. -/
theorem alloc_min_assign_rem_nonneg (usable : Int) (wishlist : List WishItem)
    (h : 0 ≤ usable) :
    recsTrace usable (allocate_to_wishlist usable wishlist).1 = true ∧
    0 ≤ (allocate_to_wishlist usable wishlist).2 :=
  ⟨allocLoop_trace _ _, allocLoop_rem_nonneg _ _ h⟩

/-- Witness for C5 on the spec's scenario (usable 120). -/
theorem alloc_min_assign_rem_nonneg_witness :
    (0 : Int) ≤ 120 ∧
    (recsTrace 120 (allocate_to_wishlist 120 exampleItems).1 = true ∧
     0 ≤ (allocate_to_wishlist 120 exampleItems).2) :=
  ⟨by decide, alloc_min_assign_rem_nonneg 120 exampleItems (by decide)⟩

/-- C9: with a usable budget of 0 and a non-empty wishlist the result is
not empty — it is exactly one record, for the head of the sorted order,
with `assigned = 0`, because the early-exit check runs only after a record
has been appended. -/
theorem zero_budget_one_record (wishlist : List WishItem) (it : WishItem)
    (rest : List WishItem) (hs : sortByPriority wishlist = it :: rest) :
    allocate_to_wishlist 0 wishlist =
      ([⟨it.id, it.name, 0, monthly_need_for_item it⟩], 0) := by
  have hmin : min (monthly_need_for_item it) 0 = 0 :=
    min_eq_right (monthly_need_nonneg it)
  simp [allocate_to_wishlist, hs, allocLoop, hmin]

/-- Witness for C9: usable 0 over the three-item scenario returns the
single zero-assigned record of the priority-1 item. -/
theorem zero_budget_one_record_witness :
    allocate_to_wishlist 0 exampleItems = ([⟨2, "B", 0, 50⟩], 0) :=
  zero_budget_one_record exampleItems
    ⟨2, "B", 50, some 1, some 0, some 1, "t2"⟩
    [⟨1, "A", 100, some 1, some 0, some 2, "t1"⟩,
     ⟨3, "C", 80, some 1, some 0, some 2, "t3"⟩]
    (by decide)

/-- C10: budget conservation — the assigned amounts plus the returned
remainder always reconstruct the usable input. -/
theorem alloc_conserves_budget (usable : Int) (wishlist : List WishItem)
    (h : 0 ≤ usable) :
    sumAssigned (allocate_to_wishlist usable wishlist).1 +
      (allocate_to_wishlist usable wishlist).2 = usable :=
  allocLoop_conserve (sortByPriority wishlist) usable

/-- Witness for C10 on the spec's scenario. -/
theorem alloc_conserves_budget_witness :
    (0 : Int) ≤ 120 ∧
    sumAssigned (allocate_to_wishlist 120 exampleItems).1 +
      (allocate_to_wishlist 120 exampleItems).2 = 120 :=
  ⟨by decide, alloc_conserves_budget 120 exampleItems (by decide)⟩

/-- Inserting an item produces a permutation of consing it. -/
theorem insertByPriority_perm (x : WishItem) (l : List WishItem) :
    (insertByPriority x l).Perm (x :: l) := by
  induction l with
  | nil => exact List.Perm.refl _
  | cons y ys ih =>
    simp only [insertByPriority]
    split
    · exact List.Perm.refl _
    · exact (ih.cons y).trans (List.Perm.swap x y ys)

/-- The stable sort permutes its input. -/
theorem sortByPriority_perm (l : List WishItem) :
    (sortByPriority l).Perm l := by
  induction l with
  | nil => exact List.Perm.refl _
  | cons x xs ih =>
    exact (insertByPriority_perm x (sortByPriority xs)).trans (ih.cons x)

/-- Membership of an insertion result. -/
theorem mem_insertByPriority {a x : WishItem} {l : List WishItem} :
    a ∈ insertByPriority x l ↔ a = x ∨ a ∈ l := by
  rw [(insertByPriority_perm x l).mem_iff]
  simp

/-- Inserting into a list sorted ascending by the priority key keeps it
sorted. -/
theorem insertByPriority_sorted (x : WishItem) (l : List WishItem)
    (h : List.Sorted (fun a b => priorityKey a ≤ priorityKey b) l) :
    List.Sorted (fun a b => priorityKey a ≤ priorityKey b)
      (insertByPriority x l) := by
  induction l with
  | nil => simp [insertByPriority]
  | cons y ys ih =>
    rcases List.pairwise_cons.mp h with ⟨hy, hys⟩
    simp only [insertByPriority]
    split
    · next hxy =>
      refine List.pairwise_cons.mpr ⟨fun z hz => ?_, h⟩
      rcases List.mem_cons.mp hz with hz | hz
      · subst hz; exact hxy
      · exact le_trans hxy (hy z hz)
    · next hxy =>
      refine List.pairwise_cons.mpr ⟨fun z hz => ?_, ih hys⟩
      rcases mem_insertByPriority.mp hz with hz | hz
      · subst hz; exact le_of_lt (lt_of_not_le hxy)
      · exact hy z hz

/-- The sort's output is ascending in the priority key. -/
theorem sortByPriority_sorted (l : List WishItem) :
    List.Sorted (fun a b => priorityKey a ≤ priorityKey b)
      (sortByPriority l) := by
  induction l with
  | nil => simp [sortByPriority]
  | cons x xs ih => exact insertByPriority_sorted x (sortByPriority xs) ih

/-- Filtering one priority class commutes with insertion: the inserted
item lands in front of its class because insertion only passes over
strictly smaller keys. -/
theorem insertByPriority_filter (v : Int) (x : WishItem)
    (l : List WishItem) :
    (insertByPriority x l).filter (fun it => decide (priorityKey it = v)) =
      if priorityKey x = v then
        x :: l.filter (fun it => decide (priorityKey it = v))
      else l.filter (fun it => decide (priorityKey it = v)) := by
  induction l with
  | nil =>
    by_cases hpx : priorityKey x = v
    · simp [insertByPriority, List.filter_cons, hpx]
    · simp [insertByPriority, List.filter_cons, hpx]
  | cons y ys ih =>
    simp only [insertByPriority]
    split
    · next hxy =>
      by_cases hpx : priorityKey x = v
      · simp [List.filter_cons, hpx]
      · simp [List.filter_cons, hpx]
    · next hxy =>
      have hyx : priorityKey y < priorityKey x := lt_of_not_le hxy
      by_cases hpx : priorityKey x = v
      · have hpy : ¬ priorityKey y = v := by omega
        simp [List.filter_cons, hpx, hpy, ih]
      · by_cases hpy : priorityKey y = v
        · simp [List.filter_cons, hpx, hpy, ih]
        · simp [List.filter_cons, hpx, hpy, ih]

/-- Stability: each priority class comes out of the sort in its original
relative order. -/
theorem sortByPriority_filter (v : Int) (l : List WishItem) :
    (sortByPriority l).filter (fun it => decide (priorityKey it = v)) =
      l.filter (fun it => decide (priorityKey it = v)) := by
  induction l with
  | nil => rfl
  | cons x xs ih =>
    simp only [sortByPriority, insertByPriority_filter, ih, List.filter_cons]
    split
    · next h => simp [h]
    · next h => simp [h]

/-- C4: `allocate_to_wishlist` processes the wishlist in ascending priority
order with missing priorities keyed as 999, through a stable sort: the
output is a permutation of the input, is ascending in the key, and every
priority class keeps its original relative order (which decides who is
funded first on a tight budget). -/
theorem sort_stable_by_priority (l : List WishItem) (v : Int) :
    (sortByPriority l).Perm l ∧
    List.Sorted (fun a b => priorityKey a ≤ priorityKey b)
      (sortByPriority l) ∧
    (sortByPriority l).filter (fun it => decide (priorityKey it = v)) =
      l.filter (fun it => decide (priorityKey it = v)) ∧
    (∀ it : WishItem, it.priority = none → priorityKey it = 999) :=
  ⟨sortByPriority_perm l, sortByPriority_sorted l, sortByPriority_filter v l,
   fun it h => by simp [priorityKey, h]⟩

/-- Witness for C4: the spec's scenario sorts to ids 2, 1, 3 (the two
priority-2 items keep their original order) and a priority-less item is
keyed 999. -/
theorem sort_stable_by_priority_witness :
    (sortByPriority exampleItems).filter
        (fun it => decide (priorityKey it = 2)) =
      exampleItems.filter (fun it => decide (priorityKey it = 2)) ∧
    priorityKey ⟨7, "n", 0, none, none, none, ""⟩ = 999 :=
  ⟨(sort_stable_by_priority exampleItems 2).2.2.1,
   (sort_stable_by_priority [] 0).2.2.2 ⟨7, "n", 0, none, none, none, ""⟩ rfl⟩

/-- An id that occurs in no allocation record looks up to 0 in the
`id_to_assigned` dict. -/
theorem id_to_assigned_eq_zero {alloc : List AllocRec} {i : Int}
    (h : ∀ rec ∈ alloc, rec.id ≠ i) : id_to_assigned alloc i = 0 := by
  unfold id_to_assigned
  have hfind : alloc.reverse.find? (fun a => a.id == i) = none := by
    rw [List.find?_eq_none]
    intro a ha
    simpa using h a (List.mem_reverse.mp ha)
  rw [hfind]

/-- The per-item update of the apply-allocation loop never changes the
item's id. -/
theorem updItem_id (alloc : List AllocRec) (it : WishItem) :
    (updItem alloc it).id = it.id := by
  unfold updItem
  by_cases h : 0 < id_to_assigned alloc it.id
  · simp [h]
  · simp [h]

/-- C6: applying a monthly allocation appends exactly one `monthly_alloc`
transaction and rewrites each wishlist item independently; an item none of
whose ids occur in the result is untouched, an item with a positive looked-up
amount has exactly that amount added to its `current`, and the operation is
not idempotent — a second application of the same result adds the amount
again, doubling the delta. -/
theorem apply_allocation_props (ts ts2 : String) (state : AppState)
    (alloc : List AllocRec) (it : WishItem)
    (ha : 0 < id_to_assigned alloc it.id) :
    (apply_monthly_allocation ts state alloc).transactions =
      state.transactions ++ [Transaction.monthlyAlloc ts alloc] ∧
    (apply_monthly_allocation ts state alloc).wishlist =
      state.wishlist.map (updItem alloc) ∧
    (∀ j : WishItem, (∀ rec ∈ alloc, rec.id ≠ j.id) → updItem alloc j = j) ∧
    (updItem alloc it).current.getD 0 =
      it.current.getD 0 + id_to_assigned alloc it.id ∧
    (apply_monthly_allocation ts2 (apply_monthly_allocation ts state alloc)
        alloc).wishlist =
      state.wishlist.map (fun j => updItem alloc (updItem alloc j)) ∧
    (updItem alloc (updItem alloc it)).current.getD 0 =
      it.current.getD 0 + 2 * id_to_assigned alloc it.id := by
  have hone : updItem alloc it =
      { it with current := some (it.current.getD 0 + id_to_assigned alloc it.id) } := by
    unfold updItem
    simp [ha]
  have htwo : (updItem alloc (updItem alloc it)).current.getD 0 =
      it.current.getD 0 + 2 * id_to_assigned alloc it.id := by
    rw [hone]
    unfold updItem
    simp [ha]
    ring
  refine ⟨rfl, rfl, ?_, by rw [hone]; simp, ?_, htwo⟩
  · intro j hj
    unfold updItem
    simp [id_to_assigned_eq_zero hj]
  · simp [apply_monthly_allocation, List.map_map, Function.comp]

/-- Witness for C6: the allocation record assigning 70 to id 1 moves the
item's `current` from 0 to 70 on one application and to 140 on two. -/
theorem apply_allocation_props_witness :
    (updItem [⟨1, "A", 70, 100⟩]
        ⟨1, "A", 100, some 1, some 0, some 2, "t1"⟩).current.getD 0 = 70 ∧
    (updItem [⟨1, "A", 70, 100⟩] (updItem [⟨1, "A", 70, 100⟩]
        ⟨1, "A", 100, some 1, some 0, some 2, "t1"⟩)).current.getD 0 = 140 := by
  have h := apply_allocation_props "ts1" "ts2"
    ⟨⟨0, 0, 0, 0⟩, exampleItems, []⟩ [⟨1, "A", 70, 100⟩]
    ⟨1, "A", 100, some 1, some 0, some 2, "t1"⟩ (by decide)
  exact ⟨h.2.2.2.1, h.2.2.2.2.2⟩

/-- A deposit whose id matches no item leaves the list unchanged. -/
theorem addDeposit_no_match (item_id amount : Int) (l : List WishItem)
    (h : ∀ it ∈ l, it.id ≠ item_id) :
    addDepositToWishlist item_id amount l = l := by
  induction l with
  | nil => rfl
  | cons it rest ih =>
    have hit : it.id ≠ item_id := h it (List.mem_cons_self it rest)
    simp only [addDepositToWishlist, if_neg hit]
    rw [ih (fun j hj => h j (List.mem_cons_of_mem it hj))]

/-- A deposit updates exactly the first matching item and nothing after
it (the loop breaks on the first hit). -/
theorem addDeposit_first_match (item_id amount : Int) (pre : List WishItem)
    (it : WishItem) (post : List WishItem)
    (hpre : ∀ p ∈ pre, p.id ≠ item_id) (hit : it.id = item_id) :
    addDepositToWishlist item_id amount (pre ++ it :: post) =
      pre ++ { it with current := some (it.current.getD 0 + amount) } :: post := by
  induction pre with
  | nil => simp [addDepositToWishlist, hit]
  | cons p ps ih =>
    have hp : p.id ≠ item_id := hpre p (List.mem_cons_self p ps)
    have ih2 := ih (fun q hq => hpre q (List.mem_cons_of_mem p hq))
    simp only [List.cons_append, addDepositToWishlist, if_neg hp,
      List.append_eq]
    rw [ih2]

/-- C7: a manual deposit to an id matching no wishlist item changes no
item (silent no-op) yet still appends exactly one `manual_deposit`
transaction referencing that id, growing the log by one; on a matching id
the amount is added to the first matching item's `current` and the same
single transaction is appended. -/
theorem manual_deposit_props (ts memo : String) (item_id amount : Int) :
    (∀ state : AppState, (∀ it ∈ state.wishlist, it.id ≠ item_id) →
      (record_manual_deposit ts state item_id amount memo).wishlist =
        state.wishlist ∧
      (record_manual_deposit ts state item_id amount memo).transactions =
        state.transactions ++ [Transaction.manualDeposit ts amount item_id memo] ∧
      (record_manual_deposit ts state item_id amount memo).transactions.length =
        state.transactions.length + 1) ∧
    (∀ (state : AppState) (pre : List WishItem) (it : WishItem)
        (post : List WishItem),
      state.wishlist = pre ++ it :: post → (∀ p ∈ pre, p.id ≠ item_id) →
      it.id = item_id →
      (record_manual_deposit ts state item_id amount memo).wishlist =
        pre ++ { it with current := some (it.current.getD 0 + amount) } :: post ∧
      (record_manual_deposit ts state item_id amount memo).transactions =
        state.transactions ++ [Transaction.manualDeposit ts amount item_id memo]) := by
  constructor
  · intro state h
    refine ⟨?_, rfl, by simp [record_manual_deposit]⟩
    simp [record_manual_deposit, addDeposit_no_match item_id amount _ h]
  · intro state pre it post hw hpre hit
    refine ⟨?_, rfl⟩
    simp [record_manual_deposit, hw,
      addDeposit_first_match item_id amount pre it post hpre hit]

/-- Witness for C7: depositing 10 to the absent id 99 leaves the scenario
wishlist unchanged while the log grows; depositing 10 to id 1 raises that
item's `current` to 10. -/
theorem manual_deposit_props_witness :
    (record_manual_deposit "ts" ⟨⟨0, 0, 0, 0⟩, exampleItems, []⟩ 99 10
        "m").wishlist = exampleItems ∧
    (record_manual_deposit "ts" ⟨⟨0, 0, 0, 0⟩, exampleItems, []⟩ 99 10
        "m").transactions.length = 0 + 1 ∧
    (record_manual_deposit "ts" ⟨⟨0, 0, 0, 0⟩, exampleItems, []⟩ 1 10
        "m").wishlist =
      ⟨1, "A", 100, some 1, some 10, some 2, "t1"⟩ ::
        exampleItems.drop 1 := by
  have h1 := (manual_deposit_props "ts" "m" 99 10).1
    ⟨⟨0, 0, 0, 0⟩, exampleItems, []⟩ (by decide)
  have h2 := (manual_deposit_props "ts" "m" 1 10).2
    ⟨⟨0, 0, 0, 0⟩, exampleItems, []⟩ []
    ⟨1, "A", 100, some 1, some 0, some 2, "t1"⟩ (exampleItems.drop 1)
    rfl (by simp) rfl
  exact ⟨h1.1, h1.2.2, h2.1⟩

/-- A lower bound on the seed is a lower bound on a max-fold. -/
theorem le_foldl_max_init (l : List Int) : ∀ i a : Int, a ≤ i →
    a ≤ l.foldl max i := by
  induction l with
  | nil => intro i a h; simpa using h
  | cons j js ih =>
    intro i a h
    exact ih (max i j) a (le_trans h (le_max_left i j))

/-- Every member of a list is bounded by a max-fold over it. -/
theorem mem_le_foldl_max (l : List Int) : ∀ i a : Int, a ∈ l →
    a ≤ l.foldl max i := by
  induction l with
  | nil => intro i a h; exact absurd h (List.not_mem_nil a)
  | cons j js ih =>
    intro i a h
    rcases List.mem_cons.mp h with h | h
    · subst h
      exact le_foldl_max_init js (max i a) a (le_max_right i a)
    · exact ih (max i j) a h

/-- The fresh id strictly dominates every id already in the wishlist. -/
theorem new_item_id_gt (data : AppState) :
    ∀ it ∈ data.wishlist, it.id < new_item_id data := by
  obtain ⟨p, w, t⟩ := data
  intro it hit
  cases w with
  | nil => exact absurd hit (List.not_mem_nil it)
  | cons hd rest =>
    have hrfl : new_item_id ⟨p, hd :: rest, t⟩ =
        (rest.map (fun j => j.id)).foldl max hd.id + 1 := rfl
    rw [hrfl]
    rcases List.mem_cons.mp hit with h | h
    · subst h
      have := le_foldl_max_init (rest.map (fun j => j.id)) it.id it.id le_rfl
      omega
    · have hmem : it.id ∈ rest.map (fun j => j.id) := List.mem_map_of_mem _ h
      have := mem_le_foldl_max (rest.map (fun j => j.id)) hd.id it.id hmem
      omega

/-- A deposit rewrites at most one item's `current`, never an id. -/
theorem addDeposit_ids (item_id amount : Int) (l : List WishItem) :
    (addDepositToWishlist item_id amount l).map (fun it => it.id) =
      l.map (fun it => it.id) := by
  induction l with
  | nil => rfl
  | cons it rest ih =>
    by_cases h : it.id = item_id
    · simp [addDepositToWishlist, h]
    · simp [addDepositToWishlist, h, ih]

/-- C8: a new item's id is the maximum existing id plus one (1 on an empty
wishlist), so it is strictly larger than every existing id; adding an item
therefore preserves distinctness of the ids, and the two ledger operations
do not change the id sequence at all — so every operation of the program
preserves the id-uniqueness invariant. -/
theorem ids_unique_preserved (data : AppState) (name : String)
    (target months priority : Int) (created : String)
    (hnodup : (data.wishlist.map (fun it => it.id)).Nodup) :
    (data.wishlist = [] → new_item_id data = 1) ∧
    (∀ it ∈ data.wishlist, it.id < new_item_id data) ∧
    ((add_item data name target months priority created).wishlist.map
      (fun it => it.id)).Nodup ∧
    (∀ (ts : String) (alloc : List AllocRec),
      (apply_monthly_allocation ts data alloc).wishlist.map (fun it => it.id) =
        data.wishlist.map (fun it => it.id)) ∧
    (∀ (ts : String) (item_id amount : Int) (memo : String),
      (record_manual_deposit ts data item_id amount memo).wishlist.map
        (fun it => it.id) = data.wishlist.map (fun it => it.id)) := by
  refine ⟨fun h => by simp [new_item_id, h], new_item_id_gt data, ?_, ?_, ?_⟩
  · have hgt := new_item_id_gt data
    simp only [add_item, List.map_append, List.map_cons, List.map_nil]
    rw [List.nodup_append]
    refine ⟨hnodup, List.nodup_singleton _, ?_⟩
    intro a ha hb
    rcases List.mem_map.mp ha with ⟨it, hit, rfl⟩
    have hlt := hgt it hit
    simp at hb
    omega
  · intro ts alloc
    simp [apply_monthly_allocation, List.map_map, Function.comp, updItem_id]
  · intro ts item_id amount memo
    simp [record_manual_deposit, addDeposit_ids]

/-- Witness for C8 on the spec's scenario (ids 1, 2, 3): the fresh id is 4
and uniqueness survives adding the item. -/
theorem ids_unique_preserved_witness :
    new_item_id ⟨⟨0, 0, 0, 0⟩, exampleItems, []⟩ = 4 ∧
    ((add_item ⟨⟨0, 0, 0, 0⟩, exampleItems, []⟩ "D" 10 2 3 "t4").wishlist.map
      (fun it => it.id)).Nodup := by
  have h := ids_unique_preserved ⟨⟨0, 0, 0, 0⟩, exampleItems, []⟩ "D" 10 2 3
    "t4" (by decide)
  exact ⟨by decide, h.2.2.1⟩
